import Mathlib

/-!
Verification of the `package-bundler` build orchestration layer
(`src/esbuild.ts`): the user-plugin loader `readUserPlugins`, the two
build wrappers `buildESM` / `buildCJS`, and the CJS post-processing
(rename to `.cjs.js`, shell copy/remove, per-subpackage `package.json`
stub generation).

Paths are modelled as strings over their character lists, matching the
JavaScript string operations used by the source (`String.prototype.replace`
with a string pattern replaces the first occurrence; `path.join`
normalizes `.` segments and duplicate separators; `path.basename` takes
the part after the last `/`).
-/

/-- JS `s.replace(pat, rep)` with a string pattern: replace the first
occurrence of `pat` (if any), on character lists. -/
def replaceFirstList (pat rep : List Char) : List Char → List Char
  | [] => if pat.isPrefixOf ([] : List Char) then rep else []
  | c :: rest =>
    if pat.isPrefixOf (c :: rest) then rep ++ (c :: rest).drop pat.length
    else c :: replaceFirstList pat rep rest

/-- JS `s.replace(pat, rep)` with a string pattern, on strings. -/
def replaceFirst (s pat rep : String) : String :=
  ⟨replaceFirstList pat.data rep.data s.data⟩

/-- JS `s.replace(/(\\|\/)$/, '')`: remove one trailing path separator. -/
def stripTrailingSep (s : String) : String :=
  match s.data.getLast? with
  | some c => if c = '/' ∨ c = '\\' then ⟨s.data.dropLast⟩ else s
  | none => s

/-- JS `s.replace(/^(\/|\\)/, '')`: remove one leading path separator. -/
def stripLeadingSep (s : String) : String :=
  match s.data with
  | c :: rest => if c = '/' ∨ c = '\\' then ⟨rest⟩ else s
  | [] => s

/-- Characters after the last `/` of a character list (empty if the list
ends with `/`). -/
def afterLastSlash (l : List Char) : List Char :=
  l.foldl (fun acc c => if c = '/' then [] else acc ++ [c]) []

/-- Node `path.basename` for POSIX-style file paths. -/
def basename (p : String) : String := ⟨afterLastSlash p.data⟩

/-- Split a character list on `/`. -/
def splitSlash : List Char → List (List Char)
  | [] => [[]]
  | c :: rest =>
    if c = '/' then [] :: splitSlash rest
    else
      match splitSlash rest with
      | [] => [[c]]
      | s :: ss => (c :: s) :: ss

/-- The non-trivial path segments of a string: split on `/`, dropping empty
segments and `.` segments (as Node `path.join` normalization does). -/
def pathSegs (s : String) : List (List Char) :=
  (splitSlash s.data).filter (fun x => x ≠ [] ∧ x ≠ ['.'])

/-- Join path segments back with `/` separators. -/
def joinSegs : List (List Char) → List Char
  | [] => []
  | [x] => x
  | x :: y :: ys => x ++ '/' :: joinSegs (y :: ys)

/-- Segments contributed by a list of path parts. -/
def partsSegs : List String → List (List Char)
  | [] => []
  | p :: ps => pathSegs p ++ partsSegs ps

/-- Node `path.join` for POSIX-style paths (no `..` resolution, which the
source never relies on): drop empty arguments, concatenate with `/`, and
normalize away `.` segments and duplicate separators. The result is
absolute iff the first non-empty argument starts with `/`. -/
def pathJoin (parts : List String) : String :=
  match parts.filter (fun p => ! p.data.isEmpty) with
  | [] => "."
  | p :: ps =>
    if p.data.head? = some '/' then ⟨'/' :: joinSegs (partsSegs (p :: ps))⟩
    else if partsSegs (p :: ps) = [] then "." else ⟨joinSegs (partsSegs (p :: ps))⟩

/-- JS `s.includes(pat)`: substring test, on character lists. -/
def listIncludes (pat : List Char) : List Char → Bool
  | [] => pat.isEmpty
  | c :: rest => pat.isPrefixOf (c :: rest) || listIncludes pat rest

/-- JS `s.includes(pat)` on strings. -/
def strIncludes (s pat : String) : Bool := listIncludes pat.data s.data

/-- A string that is an absolute POSIX path in normal form: starts with `/`,
has at least one segment, and re-rendering its segments reproduces it
(no trailing slash, no `//`, no `.` segments). -/
def NormalAbsDir (s : String) : Prop :=
  s.data.head? = some '/' ∧ pathSegs s ≠ [] ∧ s = ⟨'/' :: joinSegs (pathSegs s)⟩

instance (s : String) : Decidable (NormalAbsDir s) := by
  unfold NormalAbsDir; infer_instance

/-- An esbuild plugin, opaque to this layer: either the dependency
externalization plugin `nodeExternalsPlugin` configured with a list of
`package.json` paths, or a user-supplied plugin (identified by a tag). -/
inductive Plugin where
  | nodeExternals (packagePath : List String)
  | user (id : Nat)
deriving DecidableEq

/-- Shape of the default export of `package-bundler.plugins.js`
(`Partial<ReadUserPluginsReturnType>` in the source: both fields optional;
`none` models an absent/`undefined` field, `some l` a present array). -/
structure ReadUserPluginsReturnType where
  cjs : Option (List Plugin)
  esm : Option (List Plugin)
deriving DecidableEq

/-- The loader's `defaultOut`: `{ cjs: [], esm: [] }`. -/
def defaultOut : ReadUserPluginsReturnType := { cjs := some [], esm := some [] }

/-- A `console.warn` emitted by `readUserPlugins`: either the
invalid-format message or the `Error reading user plugins ...` message
printed from the `catch` block. -/
inductive PluginWarning where
  | invalidFormat
  | errorReading
deriving DecidableEq

/-- State of `package-bundler.plugins.js` in the current working directory:
absent (`fs.stat` throws), present but not a regular file
(`stat.isFile()` is false), or a regular file whose dynamic `import`
either fails or yields a default export (`none` models a missing /
`undefined` default export). -/
inductive PluginFileState where
  | absent
  | notAFile
  | present (load : Except String (Option ReadUserPluginsReturnType))

/-- `readUserPlugins` from `src/esbuild.ts`, as a function of the plugin
file's state: returns the warnings it logs together with its result.
It is total: no failure escapes the loader. -/
def readUserPlugins : PluginFileState → List PluginWarning × ReadUserPluginsReturnType
  | .absent => ([.errorReading], defaultOut)
  | .notAFile => ([], defaultOut)
  | .present (.error _) => ([.errorReading], defaultOut)
  | .present (.ok none) => ([.invalidFormat], defaultOut)
  | .present (.ok (some plugins)) =>
    if plugins.cjs = none ∧ plugins.esm = none then ([.invalidFormat], defaultOut)
    else ([], plugins)

/-- Plugins the external bundler engine actually runs for a given
`plugins` option: esbuild treats an absent (`undefined`) plugin list as
no plugins, i.e. the same as `[]`. -/
def effectiveEnginePlugins (p : Option (List Plugin)) : List Plugin := p.getD []

/-- Output module format passed to the engine. -/
inductive ModuleFormat where
  | esm
  | cjs
deriving DecidableEq

/-- The configuration object handed to `esbuild.build`. `plugins` is
`Option`-valued because `buildESM` passes the possibly-absent `esm` field
through unchanged. -/
structure BuildConfig where
  sourcemap : Bool
  target : List String
  bundle : Bool
  entryPoints : List String
  format : ModuleFormat
  outdir : String
  plugins : Option (List Plugin)
deriving DecidableEq

/-- The generated `package.json` manifest stub (`pJsonTemplate`). -/
structure ManifestStub where
  main : String
  module : String
  name : String
  types : String
deriving DecidableEq

/-- A file-system side effect performed by `buildCJS` after the engine
call: an `fs.moveSync` rename, one of the two `executeCmd` shell
invocations, or an `fs.writeFileSync` of a manifest stub. -/
inductive FsAction where
  | move (src dst : String)
  | shellCopy (src dst : String)
  | shellRemove (dir : String)
  | writeStub (path : String) (stub : ManifestStub)
deriving DecidableEq

/-- The manifest stub computed for one compiled `*.cjs.js` file, together
with the path it is written to, exactly as in the `forEach` body of
`buildCJS`: `mainFile = path.basename(p)`;
`sub = p.replace(outDir, '').replace(mainFile, '').replace(/(\\|\/)$/, '')`;
stub `= { main: mainFile, module: mainFile.replace('.cjs', ''),`
`name: packageName + '/' + sub.replace(/^(\/|\\)/, ''), types: 'index.d.ts' }`;
path `= path.join(outDir, '.' + sub, 'package.json')`. -/
def manifestStubFor (packageName outDir cjsFilePath : String) : ManifestStub × String :=
  ({ main := basename cjsFilePath,
     module := replaceFirst (basename cjsFilePath) ".cjs" "",
     name := packageName ++ "/" ++
       stripLeadingSep (stripTrailingSep
         (replaceFirst (replaceFirst cjsFilePath outDir "") (basename cjsFilePath) "")),
     types := "index.d.ts" },
   pathJoin [outDir,
     "." ++ stripTrailingSep
       (replaceFirst (replaceFirst cjsFilePath outDir "") (basename cjsFilePath) ""),
     "package.json"])

/-- The filter applied before stub generation:
`!cjsFilePath.includes('dist/index.cjs.js')` negated, i.e. `true` when the
file is excluded from manifest generation. -/
def stubExcluded (cjsFilePath : String) : Bool :=
  strIncludes cjsFilePath "dist/index.cjs.js"

/-- Manifest stubs (with their write paths) generated for a list of
discovered `*.cjs.js` files, in order. -/
def manifestWrites (packageName outDir : String) (cjsFiles : List String) :
    List (ManifestStub × String) :=
  (cjsFiles.filter (fun f => ! stubExcluded f)).map (manifestStubFor packageName outDir)

/-- The rename applied to each globbed `*.js` file:
`p.replace(/\.js$/, '.cjs.js')`. -/
def cjsRename (f : String) : String :=
  if ".js".data.isSuffixOf f.data then
    ⟨f.data.take (f.data.length - 3) ++ ".cjs.js".data⟩
  else f

/-- Modelled from the spec: the shell copy and removal are performed via
`executeCmd` (`src/executeCmd.ts`, not under `src/`), described by the
spec as a recursive copy of the temporary `cjs` subdirectory's contents
into the output root followed by recursive removal of that subdirectory.
This function maps the build's files under `<outDir>/cjs` through the
whole post-processing phase of `buildCJS`: each file is renamed by
`cjsRename`, `cp -r <outDir>/cjs/* <outDir>` duplicates it at the same
path relative to `<outDir>`, and `rm -rf <outDir>/cjs` then removes every
file still under `<outDir>/cjs/`. The result is the build's files that
exist afterwards. -/
def cjsPostProcess (outDir : String) (tmpFiles : List String) : List String :=
  List.filter (fun f => ! ((pathJoin [outDir, "cjs"]).data ++ ['/']).isPrefixOf f.data)
    ((tmpFiles.map cjsRename) ++
      (tmpFiles.map cjsRename).map
        (fun f => (⟨outDir.data ++ f.data.drop (pathJoin [outDir, "cjs"]).data.length⟩ : String)))

/-- The configuration `buildESM` passes to `esbuild.build`. -/
def buildESMConfig (srcFilesToCompile : List String) (outDir : String)
    (sourcemap : Bool) (target : List String) (pluginFile : PluginFileState) : BuildConfig :=
  { sourcemap := sourcemap, target := target, bundle := false,
    entryPoints := srcFilesToCompile, format := .esm, outdir := outDir,
    plugins := (readUserPlugins pluginFile).2.esm }

/-- `buildESM` from `src/esbuild.ts`: the list of engine invocations it
makes and the file-system actions it performs afterwards (none). -/
def buildESM (srcFilesToCompile : List String) (outDir : String)
    (sourcemap : Bool) (target : List String) (pluginFile : PluginFileState) :
    List BuildConfig × List FsAction :=
  ([buildESMConfig srcFilesToCompile outDir sourcemap target pluginFile], [])

/-- The configuration `buildCJS` passes to `esbuild.build`. -/
def buildCJSConfig (cjsFilesToCompile : List String) (outDir : String) (sourcemap : Bool)
    (packageJsonFiles target : List String) (pluginFile : PluginFileState) : BuildConfig :=
  { sourcemap := sourcemap, target := target, bundle := true,
    entryPoints := cjsFilesToCompile, format := .cjs,
    outdir := pathJoin [outDir, "cjs"],
    plugins := some (Plugin.nodeExternals packageJsonFiles ::
      ((readUserPlugins pluginFile).2.cjs.getD [])) }

/-- `buildCJS` from `src/esbuild.ts`, as a function of the engine call's
outcome (`engineResult`: failure message, or the files the bundler
produced under `<outDir>/cjs`). A failed engine call rejects the whole
wrapper (`await` rethrows) before any post-processing; on success the
wrapper performs the renames, the two shell commands, and the manifest
stub writes for every discovered `*.cjs.js` file that survives
post-processing and is not excluded. -/
def buildCJS (packageName : String) (cjsFilesToCompile : List String) (outDir : String)
    (sourcemap : Bool) (packageJsonFiles target : List String)
    (pluginFile : PluginFileState) (engineResult : Except String (List String)) :
    Except String (BuildConfig × List FsAction) :=
  match engineResult with
  | .error e => .error e
  | .ok tmpFiles =>
    .ok (buildCJSConfig cjsFilesToCompile outDir sourcemap packageJsonFiles target pluginFile,
      ((tmpFiles.filter (fun f => ".js".data.isSuffixOf f.data)).map
        (fun f => FsAction.move f (cjsRename f)))
      ++ FsAction.shellCopy (pathJoin [outDir, "cjs", "*"]) outDir
      :: FsAction.shellRemove (pathJoin [outDir, "cjs"])
      :: ((manifestWrites packageName outDir
            ((cjsPostProcess outDir tmpFiles).filter
              (fun f => ".cjs.js".data.isSuffixOf f.data))).map
          (fun w => FsAction.writeStub w.2 w.1)))

/-! ### Helper lemmas -/

theorem strExt {a b : String} (h : a.data = b.data) : a = b := by
  cases a; cases b; exact congrArg String.mk h

theorem strData_append (a b : String) : (a ++ b).data = a.data ++ b.data := rfl

theorem strAppend_assoc (a b c : String) : (a ++ b) ++ c = a ++ (b ++ c) := by
  apply strExt; simp [strData_append, List.append_assoc]

theorem isPrefixOf_append_left (a b : List Char) : a.isPrefixOf (a ++ b) = true := by
  induction a with
  | nil => simp [List.isPrefixOf]
  | cons c cs ih => simp [List.isPrefixOf, ih]

theorem isPrefixOf_refl_self (l : List Char) : l.isPrefixOf l = true := by
  have h := isPrefixOf_append_left l []
  rwa [List.append_nil] at h

theorem isPrefixOf_append_both (a x y : List Char) :
    (a ++ x).isPrefixOf (a ++ y) = x.isPrefixOf y := by
  induction a with
  | nil => rfl
  | cons c cs ih => simp [List.isPrefixOf, ih]

theorem isSuffixOf_append_self (a b : List Char) : b.isSuffixOf (a ++ b) = true := by
  rw [List.isSuffixOf_iff_suffix]
  exact List.suffix_append a b

theorem listIncludes_append_self (a b : List Char) : listIncludes b (a ++ b) = true := by
  induction a with
  | nil =>
    cases b with
    | nil => rfl
    | cons c cs => simp [listIncludes, isPrefixOf_refl_self]
  | cons c cs ih => simp [listIncludes, ih]

theorem replaceFirstList_of_prefix (pat rep s : List Char) (h : pat.isPrefixOf s = true) :
    replaceFirstList pat rep s = rep ++ s.drop pat.length := by
  cases s with
  | nil =>
    have hp : pat = [] := by
      cases pat with
      | nil => rfl
      | cons c cs => simp [List.isPrefixOf] at h
    subst hp
    simp [replaceFirstList]
  | cons c rest => simp [replaceFirstList, h]

theorem afterLastSlash_append (x b : List Char) :
    afterLastSlash (x ++ '/' :: b) = afterLastSlash ('/' :: b) := by
  unfold afterLastSlash
  rw [List.foldl_append]
  simp

theorem joinSegs_append (xs ys : List (List Char)) (hx : xs ≠ []) (hy : ys ≠ []) :
    joinSegs (xs ++ ys) = joinSegs xs ++ '/' :: joinSegs ys := by
  induction xs with
  | nil => exact absurd rfl hx
  | cons x xs ih =>
    cases xs with
    | nil =>
      cases ys with
      | nil => exact absurd rfl hy
      | cons y ys2 => simp [joinSegs]
    | cons x2 xs2 =>
      have h2 := ih (by simp)
      simp only [List.cons_append] at h2 ⊢
      rw [joinSegs, h2, joinSegs]
      simp [List.append_assoc]

theorem pathJoin_cons_of_normal (outDir : String) (h : NormalAbsDir outDir)
    (rest : List String)
    (hne : partsSegs (rest.filter (fun p => ! p.data.isEmpty)) ≠ []) :
    pathJoin (outDir :: rest)
      = ⟨outDir.data ++ '/' :: joinSegs (partsSegs (rest.filter (fun p => ! p.data.isEmpty)))⟩ := by
  obtain ⟨h1, h2, h3⟩ := h
  have hod : (! outDir.data.isEmpty) = true := by
    cases hd : outDir.data with
    | nil => rw [hd] at h1; simp at h1
    | cons c cs => simp
  unfold pathJoin
  rw [List.filter_cons, if_pos hod]
  simp only
  rw [if_pos h1]
  apply strExt
  show '/' :: joinSegs (partsSegs (outDir :: rest.filter (fun p => ! p.data.isEmpty)))
      = outDir.data ++ '/' :: joinSegs (partsSegs (rest.filter (fun p => ! p.data.isEmpty)))
  rw [partsSegs, joinSegs_append _ _ h2 hne]
  have hdata : outDir.data = '/' :: joinSegs (pathSegs outDir) := by
    conv_lhs => rw [h3]
  rw [hdata]
  simp

theorem pathJoin_cjs (outDir : String) (h : NormalAbsDir outDir) :
    pathJoin [outDir, "cjs"] = outDir ++ "/cjs" := by
  rw [pathJoin_cons_of_normal outDir h ["cjs"] (by decide)]
  apply strExt
  rw [strData_append]
  exact congrArg (outDir.data ++ ·) (by decide)

theorem pathJoin_dotSub (outDir : String) (h : NormalAbsDir outDir) :
    pathJoin [outDir, "./sub", "package.json"] = outDir ++ "/sub/package.json" := by
  rw [pathJoin_cons_of_normal outDir h ["./sub", "package.json"] (by decide)]
  apply strExt
  rw [strData_append]
  exact congrArg (outDir.data ++ ·) (by decide)

theorem cjsRename_append_js (p : String) : cjsRename (p ++ ".js") = p ++ ".cjs.js" := by
  unfold cjsRename
  have hs : ".js".data.isSuffixOf (p ++ ".js").data = true := by
    rw [strData_append]; exact isSuffixOf_append_self _ _
  rw [if_pos hs]
  apply strExt
  show (p ++ ".js").data.take ((p ++ ".js").data.length - 3) ++ ".cjs.js".data
      = (p ++ ".cjs.js").data
  rw [strData_append, strData_append]
  have h3 : ".js".data = ['.', 'j', 's'] := rfl
  rw [h3]
  have hlen : (p.data ++ ['.', 'j', 's']).length - 3 = p.data.length := by
    simp [List.length_append]
  rw [hlen, List.take_left]

theorem cjsSlash_prefix_drop (l : List Char)
    (h : List.isPrefixOf ['c', 'j', 's', '/'] (l ++ ['.', 'c', 'j', 's', '.', 'j', 's']) = true) :
    List.isPrefixOf ['c', 'j', 's', '/'] l = true := by
  match l with
  | [] => exact absurd h (by decide)
  | [a] =>
    exfalso
    simp only [List.cons_append, List.nil_append, List.isPrefixOf, Bool.and_eq_true,
      beq_iff_eq] at h
    exact absurd h.2.1 (by decide)
  | [a, b] =>
    exfalso
    simp only [List.cons_append, List.nil_append, List.isPrefixOf, Bool.and_eq_true,
      beq_iff_eq] at h
    exact absurd h.2.2.1 (by decide)
  | [a, b, c] =>
    exfalso
    simp only [List.cons_append, List.nil_append, List.isPrefixOf, Bool.and_eq_true,
      beq_iff_eq] at h
    exact absurd h.2.2.2.1 (by decide)
  | a :: b :: c :: d :: rest =>
    simp only [List.cons_append, List.isPrefixOf, Bool.and_eq_true, beq_iff_eq] at h ⊢
    exact ⟨h.1, h.2.1, h.2.2.1, h.2.2.2.1, trivial⟩

theorem cjsSlash_not_prefix_append (rd : List Char)
    (hr : List.isPrefixOf ['c', 'j', 's', '/'] rd = false) :
    List.isPrefixOf ['c', 'j', 's', '/'] (rd ++ ['.', 'c', 'j', 's', '.', 'j', 's']) = false := by
  cases hp : List.isPrefixOf ['c', 'j', 's', '/'] (rd ++ ['.', 'c', 'j', 's', '.', 'j', 's']) with
  | false => rfl
  | true =>
    have := cjsSlash_prefix_drop rd hp
    rw [hr] at this
    exact absurd this (by decide)

/-! ### Claim theorems -/

/-- C7: when no plugin-definition file is present at the conventional path
(`fs.stat` rejects and the `catch` block runs), `readUserPlugins` returns
`{ cjs: [], esm: [] }` and no error propagates: the loader is a total
function, so the only observable effects are the returned default and the
`console.warn` line the `catch` block prints (spec section 6 documents
that absence degrades to a logged warning). -/
theorem c7_absent_plugin_file_returns_default :
    readUserPlugins PluginFileState.absent = ([PluginWarning.errorReading], defaultOut)
    ∧ (readUserPlugins PluginFileState.absent).2 = defaultOut :=
  ⟨rfl, rfl⟩

/-- C10: when the conventional plugin path exists but is not a regular file
(`stat.isFile()` is false), `readUserPlugins` returns the empty default
`{ cjs: [], esm: [] }` while logging no warning; the dynamic import is
never attempted (the `notAFile` state carries no load outcome at all). -/
theorem c10_not_a_file_returns_default_silently :
    readUserPlugins PluginFileState.notAFile = ([], defaultOut) :=
  rfl

/-- C6: for a plugin file whose default export is missing (`undefined`),
or is an object with neither a `cjs` nor an `esm` field, and for every
load failure, `readUserPlugins` logs a warning and returns the empty
default `{ cjs: [], esm: [] }`. It never throws: the model is a total
function, so loading user plugins cannot abort the build. -/
theorem c6_invalid_or_failed_load_warns_and_defaults (e : String)
    (b : ReadUserPluginsReturnType) (h1 : b.cjs = none) (h2 : b.esm = none) :
    readUserPlugins (.present (.ok none)) = ([.invalidFormat], defaultOut)
    ∧ readUserPlugins (.present (.ok (some b))) = ([.invalidFormat], defaultOut)
    ∧ readUserPlugins (.present (.error e)) = ([.errorReading], defaultOut) := by
  refine ⟨rfl, ?_, rfl⟩
  simp [readUserPlugins, h1, h2]

theorem c6_witness :
    ((⟨none, none⟩ : ReadUserPluginsReturnType).cjs = none
      ∧ (⟨none, none⟩ : ReadUserPluginsReturnType).esm = none)
    ∧ (readUserPlugins (.present (.ok none)) = ([.invalidFormat], defaultOut)
      ∧ readUserPlugins (.present (.ok (some ⟨none, none⟩))) = ([.invalidFormat], defaultOut)
      ∧ readUserPlugins (.present (.error "boom")) = ([.errorReading], defaultOut)) :=
  ⟨⟨rfl, rfl⟩, c6_invalid_or_failed_load_warns_and_defaults "boom" ⟨none, none⟩ rfl rfl⟩

/-- C3: for a plugin file whose default export has at least one of the
`cjs` / `esm` fields, `readUserPlugins` returns the exported object
verbatim (and logs nothing); and when the `esm` field is absent,
`buildESM` passes that absent field through to the engine, whose
effective plugin list is then empty — the same as `[]`. -/
theorem c3_verbatim_export_and_absent_esm_is_empty (src : List String) (outDir : String)
    (sm : Bool) (tgt : List String) (b : ReadUserPluginsReturnType)
    (h : ¬ (b.cjs = none ∧ b.esm = none)) :
    readUserPlugins (.present (.ok (some b))) = ([], b)
    ∧ (b.esm = none →
        (buildESMConfig src outDir sm tgt (.present (.ok (some b)))).plugins = none
        ∧ effectiveEnginePlugins
            ((buildESMConfig src outDir sm tgt (.present (.ok (some b)))).plugins) = []) := by
  constructor
  · simp [readUserPlugins, h]
  · intro he
    have hc : ¬ b.cjs = none := fun hcn => h ⟨hcn, he⟩
    constructor
    · simp [buildESMConfig, readUserPlugins, hc, he]
    · simp [buildESMConfig, readUserPlugins, hc, he, effectiveEnginePlugins]

theorem c3_witness :
    (¬ ((⟨some [Plugin.user 0], none⟩ : ReadUserPluginsReturnType).cjs = none
        ∧ (⟨some [Plugin.user 0], none⟩ : ReadUserPluginsReturnType).esm = none))
    ∧ readUserPlugins (.present (.ok (some ⟨some [Plugin.user 0], none⟩)))
        = ([], ⟨some [Plugin.user 0], none⟩)
    ∧ effectiveEnginePlugins
        ((buildESMConfig ["src/index.ts"] "/out" false ["es2020"]
          (.present (.ok (some ⟨some [Plugin.user 0], none⟩)))).plugins) = [] := by
  have h : ¬ ((⟨some [Plugin.user 0], none⟩ : ReadUserPluginsReturnType).cjs = none
      ∧ (⟨some [Plugin.user 0], none⟩ : ReadUserPluginsReturnType).esm = none) := by decide
  exact ⟨h,
    (c3_verbatim_export_and_absent_esm_is_empty ["src/index.ts"] "/out" false ["es2020"]
      ⟨some [Plugin.user 0], none⟩ h).1,
    ((c3_verbatim_export_and_absent_esm_is_empty ["src/index.ts"] "/out" false ["es2020"]
      ⟨some [Plugin.user 0], none⟩ h).2 rfl).2⟩

/-- C9: `buildESM` makes exactly one engine invocation, with cross-file
bundling disabled, ESM output format, the given source-map flag, targets,
entry points and output directory, and the loaded `esm` plugin sequence
passed through unchanged; and it performs no post-processing actions on
the output directory. -/
theorem c9_esm_single_call_no_postprocessing (src : List String) (outDir : String)
    (sm : Bool) (tgt : List String) (pf : PluginFileState) :
    (buildESM src outDir sm tgt pf).1 = [buildESMConfig src outDir sm tgt pf]
    ∧ (buildESMConfig src outDir sm tgt pf).bundle = false
    ∧ (buildESMConfig src outDir sm tgt pf).format = ModuleFormat.esm
    ∧ (buildESMConfig src outDir sm tgt pf).sourcemap = sm
    ∧ (buildESMConfig src outDir sm tgt pf).target = tgt
    ∧ (buildESMConfig src outDir sm tgt pf).entryPoints = src
    ∧ (buildESMConfig src outDir sm tgt pf).outdir = outDir
    ∧ (buildESMConfig src outDir sm tgt pf).plugins = (readUserPlugins pf).2.esm
    ∧ (buildESM src outDir sm tgt pf).2 = [] :=
  ⟨rfl, rfl, rfl, rfl, rfl, rfl, rfl, rfl, rfl⟩

/-- C8: `buildCJS` invokes the engine with full bundling enabled, CJS
output format, output directed to the temporary `cjs` subdirectory of the
output directory, and a plugin list whose first element is
`nodeExternalsPlugin` configured with the given package-manifest paths,
followed by all user-supplied CJS plugins in their original order. -/
theorem c8_cjs_engine_config (pkg : String) (entry : List String) (outDir : String)
    (sm : Bool) (pkgJson tgt : List String) (pf : PluginFileState) (fs : List String) :
    (buildCJSConfig entry outDir sm pkgJson tgt pf).bundle = true
    ∧ (buildCJSConfig entry outDir sm pkgJson tgt pf).format = ModuleFormat.cjs
    ∧ (buildCJSConfig entry outDir sm pkgJson tgt pf).outdir = pathJoin [outDir, "cjs"]
    ∧ (buildCJSConfig entry outDir sm pkgJson tgt pf).entryPoints = entry
    ∧ (buildCJSConfig entry outDir sm pkgJson tgt pf).sourcemap = sm
    ∧ (buildCJSConfig entry outDir sm pkgJson tgt pf).target = tgt
    ∧ (buildCJSConfig entry outDir sm pkgJson tgt pf).plugins
        = some (Plugin.nodeExternals pkgJson :: ((readUserPlugins pf).2.cjs.getD []))
    ∧ ∃ acts, buildCJS pkg entry outDir sm pkgJson tgt pf (Except.ok fs)
        = Except.ok (buildCJSConfig entry outDir sm pkgJson tgt pf, acts) :=
  ⟨rfl, rfl, rfl, rfl, rfl, rfl, rfl, _, rfl⟩

/-- C4: if the engine invocation inside `buildCJS` fails, the failure
propagates unchanged to the caller, and no post-processing happens: the
wrapper's result carries no rename, shell-command or manifest-stub action
of any kind. -/
theorem c4_engine_failure_propagates (pkg : String) (entry : List String) (outDir : String)
    (sm : Bool) (pkgJson tgt : List String) (pf : PluginFileState) (e : String) :
    buildCJS pkg entry outDir sm pkgJson tgt pf (Except.error e) = Except.error e
    ∧ ∀ cfg acts, buildCJS pkg entry outDir sm pkgJson tgt pf (Except.error e)
        ≠ Except.ok (cfg, acts) := by
  refine ⟨rfl, ?_⟩
  intro cfg acts h
  exact Except.noConfusion h

/-- C1 counterexample: with output root `/out` and package name `mylib`,
the stub generated for `/out/sub/feature.cjs.js` has exactly the claimed
fields, but it is written to `/out/sub/package.json` — not to the claimed
dot-prefixed `/out/.sub/package.json`: the subpackage path keeps its
leading `/`, so `'.' + '/sub' = './sub'` and `path.join` normalizes the
`.` away. -/
theorem c1_counterexample :
    (manifestStubFor "mylib" "/out" "/out/sub/feature.cjs.js").2 = "/out/sub/package.json"
    ∧ (manifestStubFor "mylib" "/out" "/out/sub/feature.cjs.js").2 ≠ "/out/.sub/package.json"
    ∧ (manifestStubFor "mylib" "/out" "/out/sub/feature.cjs.js").1
      = { main := "feature.cjs.js", module := "feature.js",
          name := "mylib/sub", types := "index.d.ts" } := by
  refine ⟨by decide, by decide, by decide⟩

/-- C2 counterexample: the exclusion filter tests the absolute path for
the substring `dist/index.cjs.js`, so for an output directory not named
`dist` (here `/out`) the top-level `index.cjs.js` DOES receive a
generated manifest stub, contradicting the claim that it never does for
every choice of output directory. -/
theorem c2_counterexample :
    manifestWrites "mylib" "/out" ["/out/index.cjs.js"]
      = [({ main := "index.cjs.js", module := "index.js",
            name := "mylib/", types := "index.d.ts" }, "/out/package.json")]
    ∧ manifestWrites "mylib" "/out" ["/out/index.cjs.js"] ≠ [] := by
  refine ⟨by decide, by decide⟩

/-- C5 counterexample: a build whose temporary tree contains a
subdirectory named `cjs` loses that subtree: for the produced file
`/out/cjs/cjs/a.js` (relative path `cjs/a.js`), the rename yields
`/out/cjs/cjs/a.cjs.js` and the shell copy puts `/out/cjs/a.cjs.js` back
under the temporary directory `/out/cjs`, which `rm -rf` then deletes —
so no corresponding `.cjs.js` file exists anywhere afterwards,
contradicting the claimed correspondence. -/
theorem c5_counterexample :
    cjsPostProcess "/out" ["/out/cjs/cjs/a.js"] = []
    ∧ "/out/cjs/a.cjs.js" ∉ cjsPostProcess "/out" ["/out/cjs/cjs/a.js"] := by
  refine ⟨by decide, by decide⟩

/-- C2 amended: manifest-stub exclusion is a substring test on the
absolute file path, not a structural top-level-entry test: a file is
excluded from stub generation exactly when its path contains the
substring `dist/index.cjs.js`. Hence (a) whenever the output directory
path ends in `dist`, the top-level `index.cjs.js` contributes no stub
(the remaining files are processed unchanged), while (b) for an output
directory not ending in `dist`, such as `/out`, the top-level
`index.cjs.js` does receive a stub. -/
theorem c2_amended_exclusion_is_substring_test (pkg pre : String) (rest : List String) :
    manifestWrites pkg (pre ++ "dist") (((pre ++ "dist") ++ "/index.cjs.js") :: rest)
      = manifestWrites pkg (pre ++ "dist") rest
    ∧ manifestWrites "mylib" "/out" ["/out/index.cjs.js"]
      = [({ main := "index.cjs.js", module := "index.js",
            name := "mylib/", types := "index.d.ts" }, "/out/package.json")] := by
  constructor
  · have hex : stubExcluded ((pre ++ "dist") ++ "/index.cjs.js") = true := by
      unfold stubExcluded strIncludes
      have hd : ((pre ++ "dist") ++ "/index.cjs.js").data
          = pre.data ++ "dist/index.cjs.js".data := by
        rw [strData_append, strData_append, List.append_assoc]
        exact congrArg (pre.data ++ ·) (by decide)
      rw [hd]
      exact listIncludes_append_self pre.data _
    unfold manifestWrites
    rw [List.filter_cons]
    simp [hex]
  · decide

/-- C1 amended: for every compiled file at output-relative path
`sub/feature.cjs.js` processed by the CJS build wrapper with package name
`packageName` and a normalized absolute output directory, the generated
manifest stub is exactly
`{ main: "feature.cjs.js", module: "feature.js", name: packageName + "/sub", types: "index.d.ts" }`
and it is written to `<outDir>/sub/package.json` — into the subpackage
directory itself, not into a dot-prefixed directory: the derived
subpackage path keeps its leading separator, so prefixing `.` yields
`./sub`, which `path.join` normalizes to `sub`. -/
theorem c1_amended_stub_into_subpackage_dir (packageName outDir : String)
    (h : NormalAbsDir outDir) :
    manifestStubFor packageName outDir (outDir ++ "/sub/feature.cjs.js")
      = ({ main := "feature.cjs.js", module := "feature.js",
           name := packageName ++ "/sub", types := "index.d.ts" },
         outDir ++ "/sub/package.json") := by
  have hmain : basename (outDir ++ "/sub/feature.cjs.js") = "feature.cjs.js" := by
    apply strExt
    show afterLastSlash (outDir ++ "/sub/feature.cjs.js").data = "feature.cjs.js".data
    rw [strData_append]
    have hcons : "/sub/feature.cjs.js".data = '/' :: "sub/feature.cjs.js".data := rfl
    rw [hcons, afterLastSlash_append]
    decide
  have hsub1 : replaceFirst (outDir ++ "/sub/feature.cjs.js") outDir ""
      = "/sub/feature.cjs.js" := by
    apply strExt
    show replaceFirstList outDir.data "".data (outDir ++ "/sub/feature.cjs.js").data
        = "/sub/feature.cjs.js".data
    rw [strData_append,
      replaceFirstList_of_prefix _ _ _ (isPrefixOf_append_left outDir.data _)]
    rw [show ("" : String).data = [] from rfl, List.nil_append]
    rw [List.drop_left]
  have hsub : stripTrailingSep
      (replaceFirst "/sub/feature.cjs.js" "feature.cjs.js" "") = "/sub" := by decide
  unfold manifestStubFor
  rw [hmain, hsub1, hsub]
  have hmod : replaceFirst "feature.cjs.js" ".cjs" "" = "feature.js" := by decide
  have hstrip : stripLeadingSep "/sub" = "sub" := by decide
  rw [hmod, hstrip]
  have hdot : ("." : String) ++ "/sub" = "./sub" := rfl
  rw [hdot, pathJoin_dotSub outDir h]
  have hname : packageName ++ "/" ++ "sub" = packageName ++ "/sub" := by
    rw [strAppend_assoc]
    exact congrArg (packageName ++ ·) (by decide)
  rw [hname]

/-- C5 amended: after `buildCJS` post-processing, every `.js` file the
bundler produced under the temporary `cjs` subdirectory whose path
relative to that directory does not itself start with `cjs/` has a
corresponding `.cjs.js` file at the same relative position in the final
output directory; and no file from that build remains under the
temporary `<outDir>/cjs/` location (the shell removal deletes everything
under it — which is exactly why a relative path starting with `cjs/` is
the exception: its relocated copy lands back under the temporary
directory and is deleted, see the counterexample). -/
theorem c5_amended_rename_and_relocate (outDir : String) (rels : List String) (r : String)
    (hdir : NormalAbsDir outDir) (hmem : r ∈ rels)
    (hr : List.isPrefixOf "cjs/".data r.data = false) :
    ((outDir ++ "/" ++ r ++ ".cjs.js") ∈
      cjsPostProcess outDir (rels.map (fun q => outDir ++ "/cjs/" ++ q ++ ".js")))
    ∧ ∀ g ∈ cjsPostProcess outDir (rels.map (fun q => outDir ++ "/cjs/" ++ q ++ ".js")),
        List.isPrefixOf (outDir ++ "/cjs/").data g.data = false := by
  have htmp : pathJoin [outDir, "cjs"] = outDir ++ "/cjs" := pathJoin_cjs outDir hdir
  have hpat : (pathJoin [outDir, "cjs"]).data ++ ['/'] = (outDir ++ "/cjs/").data := by
    rw [htmp, strData_append, strData_append, List.append_assoc]
    exact congrArg (outDir.data ++ ·) (by decide)
  have hren : cjsRename (outDir ++ "/cjs/" ++ r ++ ".js")
      = (outDir ++ "/cjs/" ++ r) ++ ".cjs.js" :=
    cjsRename_append_js (outDir ++ "/cjs/" ++ r)
  have hdropdata : ((outDir ++ "/cjs/" ++ r) ++ ".cjs.js").data
      = (outDir ++ "/cjs").data ++ ('/' :: (r.data ++ ".cjs.js".data)) := by
    simp only [strData_append, List.append_assoc, List.cons_append, List.nil_append]
  have hcopy : (⟨outDir.data ++
        (((outDir ++ "/cjs/" ++ r) ++ ".cjs.js").data.drop
          (pathJoin [outDir, "cjs"]).data.length)⟩ : String)
      = outDir ++ "/" ++ r ++ ".cjs.js" := by
    apply strExt
    show outDir.data ++
        (((outDir ++ "/cjs/" ++ r) ++ ".cjs.js").data.drop
          (pathJoin [outDir, "cjs"]).data.length)
      = (outDir ++ "/" ++ r ++ ".cjs.js").data
    rw [hdropdata, htmp, List.drop_left]
    simp only [strData_append, List.append_assoc, List.cons_append, List.nil_append]
  have hr2 : List.isPrefixOf ['c', 'j', 's', '/'] r.data = false := hr
  have hpred : (! ((pathJoin [outDir, "cjs"]).data ++ ['/']).isPrefixOf
      (outDir ++ "/" ++ r ++ ".cjs.js").data) = true := by
    rw [hpat]
    have hsplit1 : (outDir ++ "/cjs/").data
        = (outDir.data ++ ['/']) ++ ['c', 'j', 's', '/'] := by
      simp only [strData_append, List.append_assoc, List.cons_append, List.nil_append]
    have hsplit2 : (outDir ++ "/" ++ r ++ ".cjs.js").data
        = (outDir.data ++ ['/']) ++ (r.data ++ ['.', 'c', 'j', 's', '.', 'j', 's']) := by
      simp only [strData_append, List.append_assoc, List.cons_append, List.nil_append]
    rw [hsplit1, hsplit2, isPrefixOf_append_both, cjsSlash_not_prefix_append r.data hr2]
    rfl
  have hm1 : (outDir ++ "/cjs/" ++ r ++ ".js")
      ∈ rels.map (fun q => outDir ++ "/cjs/" ++ q ++ ".js") :=
    List.mem_map_of_mem _ hmem
  have hm2 : cjsRename (outDir ++ "/cjs/" ++ r ++ ".js")
      ∈ (rels.map (fun q => outDir ++ "/cjs/" ++ q ++ ".js")).map cjsRename :=
    List.mem_map_of_mem _ hm1
  have key : (fun f => (⟨outDir.data ++
        f.data.drop (pathJoin [outDir, "cjs"]).data.length⟩ : String))
        (cjsRename (outDir ++ "/cjs/" ++ r ++ ".js"))
      = outDir ++ "/" ++ r ++ ".cjs.js" := by
    show (⟨outDir.data ++
        (cjsRename (outDir ++ "/cjs/" ++ r ++ ".js")).data.drop
          (pathJoin [outDir, "cjs"]).data.length⟩ : String)
      = outDir ++ "/" ++ r ++ ".cjs.js"
    rw [hren]
    exact hcopy
  have hm3 := List.mem_map_of_mem
    (fun f => (⟨outDir.data ++
      f.data.drop (pathJoin [outDir, "cjs"]).data.length⟩ : String)) hm2
  rw [key] at hm3
  constructor
  · unfold cjsPostProcess
    exact List.mem_filter.mpr ⟨List.mem_append.mpr (Or.inr hm3), hpred⟩
  · intro g hg
    unfold cjsPostProcess at hg
    have h2 := (List.mem_filter.mp hg).2
    rw [hpat] at h2
    cases hx : List.isPrefixOf (outDir ++ "/cjs/").data g.data with
    | false => rfl
    | true => rw [hx] at h2; exact absurd h2 (by decide)

theorem c1_amended_witness :
    NormalAbsDir "/out"
    ∧ manifestStubFor "mylib" "/out" ("/out" ++ "/sub/feature.cjs.js")
      = ({ main := "feature.cjs.js", module := "feature.js",
           name := "mylib" ++ "/sub", types := "index.d.ts" },
         "/out" ++ "/sub/package.json") :=
  ⟨by decide, c1_amended_stub_into_subpackage_dir "mylib" "/out" (by decide)⟩

theorem c5_amended_witness :
    (NormalAbsDir "/out" ∧ "sub/feature" ∈ ["sub/feature"]
      ∧ List.isPrefixOf "cjs/".data "sub/feature".data = false)
    ∧ (("/out" ++ "/" ++ "sub/feature" ++ ".cjs.js") ∈
        cjsPostProcess "/out" (["sub/feature"].map (fun q => "/out" ++ "/cjs/" ++ q ++ ".js")))
    ∧ ∀ g ∈ cjsPostProcess "/out" (["sub/feature"].map (fun q => "/out" ++ "/cjs/" ++ q ++ ".js")),
        List.isPrefixOf ("/out" ++ "/cjs/").data g.data = false :=
  ⟨⟨by decide, by decide, by decide⟩,
    (c5_amended_rename_and_relocate "/out" ["sub/feature"] "sub/feature"
      (by decide) (by decide) (by decide)).1,
    (c5_amended_rename_and_relocate "/out" ["sub/feature"] "sub/feature"
      (by decide) (by decide) (by decide)).2⟩
